import Mathlib

/-!
Shallow embedding of `src/index.py` (`scrape_nccu_lib_dynamic`), the paginated
crawl-and-accumulate component of the repository.

Modelling conventions:
* A bs4 `tr` element is a list of cells (`th`/`td` tags with extracted text);
  a tag's contents are modelled as exactly its modelled children, so Python
  truthiness of a found tag (`if not header_row`, `if tbody`, which bs4
  implements via `len(tag.contents)`) becomes non-emptiness of its cell/row
  list.
* The results of the three BeautifulSoup queries the code performs on the
  table element (`find "thead"`, `find "tbody"`, `find_all "tr"`) are the
  fields of `HtmlTable`; `find` returning `None` is `Option.none`.
* The per-page outcome of the Selenium fetch/parse is an oracle
  `env : Nat → PageResult`: a page either raises one of the three caught
  exception classes, parses with or without the target table, or raises an
  error no `except` clause catches (`fatal`, e.g. `KeyboardInterrupt`),
  which makes the loop abort while the `finally` block still runs.
-/

namespace NccuScrape

/-- Kind of a table cell: `th` or `td`. -/
inductive CellTag
  | th
  | td
deriving DecidableEq, Repr

/-- One table cell: its tag and its `get_text(strip=True)` result. -/
structure Cell where
  tag : CellTag
  text : String
deriving DecidableEq, Repr

/-- A `tr` element, as the list of its cells. -/
abbrev Tr := List Cell

/-- Whether a cell is a `td` (the data extraction at line 107 collects only
`td` cells, while the header extraction at line 89 collects `th` and `td`). -/
def Cell.isTd : Cell → Bool
  | ⟨CellTag.td, _⟩ => true
  | ⟨CellTag.th, _⟩ => false

/-- Parse result for the target table of one page: the outcomes of
`table.find("thead")`, `table.find("tbody")` (with the rows inside it), and
`table.find_all("tr")` (all rows of the table in document order). -/
structure HtmlTable where
  thead : Option (List Cell)
  tbody : Option (List Tr)
  trs : List Tr
deriving DecidableEq, Repr

/-- Lines 107: `[td.get_text(strip=True) for td in row.find_all("td")]`. -/
def dataCells (r : Tr) : List String :=
  (r.filter Cell.isTd).map Cell.text

/-- Lines 83–85: `header_row = table.find("thead")`, falling back to
`table.find("tr")` when the thead is absent or falsy (empty). -/
def findHeaderRow (t : HtmlTable) : Option (List Cell) :=
  match t.thead with
  | some cs => if cs.isEmpty then t.trs.head? else some cs
  | none => t.trs.head?

/-- Lines 86–93: the value assigned to `headers_list` when `header_row` is
truthy; `[]` means the assignment did not happen (so `headers_list` keeps its
previous value, which is `[]` whenever this code runs). -/
def extractedHeaders (t : HtmlTable) : List String :=
  match findHeaderRow t with
  | some cs => if cs.isEmpty then [] else cs.map Cell.text
  | none => []

/-- Lines 81–93: new value of `headers_list` after the header-extraction block
of one page, guarded by `page_num == 1 and not headers_list`. -/
def headersAfter (page_num : Nat) (headers : List String) (t : HtmlTable) : List String :=
  if page_num == 1 && headers.isEmpty then extractedHeaders t else headers

/-- Lines 96–97: `rows = tbody.find_all("tr") if tbody else table.find_all("tr")`
(an absent or empty `tbody` is falsy). -/
def bodyRows (t : HtmlTable) : List Tr :=
  match t.tbody with
  | some rs => if rs.isEmpty then t.trs else rs
  | none => t.trs

/-- The `not tbody` test at line 99. -/
def noTbody (t : HtmlTable) : Bool :=
  match t.tbody with
  | some rs => rs.isEmpty
  | none => true

/-- Lines 96–100: the list of rows the data-extraction loop iterates over,
after the conditional `rows = rows[1:]` that skips a first row already
consumed as header. -/
def extractedRows (headers : List String) (t : HtmlTable) : List Tr :=
  if !headers.isEmpty && noTbody t && !(bodyRows t).isEmpty then
    (bodyRows t).drop 1
  else
    bodyRows t

/-- Lines 102–109: the rows a successfully parsed page appends to `all_data`:
the `td`-cell lists of the extracted rows, keeping only non-empty ones
(`if cols: all_data.append(cols)`), in encounter order. -/
def pageContribution (headers : List String) (t : HtmlTable) : List (List String) :=
  ((extractedRows headers t).map dataCells).filter (fun cols => !cols.isEmpty)

/-- The three exception classes caught by the per-page handlers
(lines 118–131). -/
inductive FetchErr
  | timeout
  | elementNotFound
  | unknown
deriving DecidableEq, Repr

/-- Outcome of fetching and parsing one page: a caught exception, a parse
with (`some`) or without (`none`, line 74) the target table, or an error no
`except` clause catches, which aborts the loop. -/
inductive PageResult
  | fetchError (e : FetchErr)
  | parsed (table : Option HtmlTable)
  | fatal
deriving DecidableEq, Repr

/-- The mutable crawl state: `headers_list` and `all_data` (lines 28–29). -/
structure CrawlState where
  headers_list : List String
  all_data : List (List String)
deriving DecidableEq, Repr

/-- State update performed by one iteration of the page loop (lines 56–131).
The caught-exception branches and the missing-table branch leave the state
unchanged (`continue`); a parsed table first updates `headers_list`, then
appends the page's non-empty data rows. -/
def processPage (page_num : Nat) (st : CrawlState) : PageResult → CrawlState
  | PageResult.fetchError _ => st
  | PageResult.fatal => st
  | PageResult.parsed none => st
  | PageResult.parsed (some t) =>
    let headers := headersAfter page_num st.headers_list t
    { headers_list := headers
      all_data := st.all_data ++ pageContribution headers t }

/-- Observable events of a run: visiting a page index, logging a caught
per-page error (the `print` in the except branches), and `driver.quit()`. -/
inductive Event
  | visit (page : Nat)
  | logFetchError (page : Nat) (e : FetchErr)
  | quit
deriving DecidableEq, Repr

/-- Result of the page loop: final state, event trace, and whether an
uncaught error aborted the loop (re-raised after the `finally` block). -/
structure LoopResult where
  state : CrawlState
  events : List Event
  aborted : Bool
deriving DecidableEq, Repr

/-- The page loop (lines 52–131) over a list of page indices: each index is
visited in order; a `fatal` outcome stops the loop at that page, caught
errors are logged and skipped, parsed pages update the state. -/
def runPages (env : Nat → PageResult) : List Nat → CrawlState → List Event → LoopResult
  | [], st, evs => ⟨st, evs, false⟩
  | p :: ps, st, evs =>
    match env p with
    | PageResult.fatal => ⟨st, evs ++ [Event.visit p], true⟩
    | PageResult.fetchError e =>
      runPages env ps st (evs ++ [Event.visit p, Event.logFetchError p e])
    | PageResult.parsed tb =>
      runPages env ps (processPage p st (PageResult.parsed tb)) (evs ++ [Event.visit p])

/-- One crawl run (lines 51–136): `for page_num in range(1, max_pages + 1)`
inside `try`, with `driver.quit()` in the `finally` block, so `quit` is
emitted on normal completion and on abort alike. -/
def crawlRun (env : Nat → PageResult) (max_pages : Nat) : LoopResult :=
  let r := runPages env (List.range' 1 max_pages) ⟨[], []⟩ []
  ⟨r.state, r.events ++ [Event.quit], r.aborted⟩

/-- Column scheme of the final DataFrame. -/
inductive Schema
  | named (cols : List String)
  | positional
  | empty
deriving DecidableEq, Repr

/-- Lines 141–151: the DataFrame construction decision. Header columns are
applied when `headers_list` is truthy and `len(all_data[0]) == len(headers_list)`;
otherwise positional columns; an empty `all_data` gives `pd.DataFrame()`. -/
def finalSchema (st : CrawlState) : Schema :=
  match st.all_data with
  | [] => Schema.empty
  | r0 :: _ =>
    if !st.headers_list.isEmpty && (r0.length == st.headers_list.length) then
      Schema.named st.headers_list
    else
      Schema.positional

/-- The header captured by a run is determined by page 1's outcome alone:
`extractedHeaders` of its table when page 1 parses one, `[]` otherwise. -/
def headersFromPage1 : PageResult → List String
  | PageResult.parsed (some t) => extractedHeaders t
  | _ => []

/-- Upper bound on the number of rows a page outcome can contribute: the
number of rows found in its table (`tbody` rows, or all `tr` when `tbody` is
absent or empty); failed or table-less pages contribute nothing. -/
def perPageRowCount : PageResult → Nat
  | PageResult.parsed (some t) => (bodyRows t).length
  | _ => 0

/-- The page indices a trace visits, in order. -/
def Event.visitedPage : Event → Option Nat
  | Event.visit p => some p
  | _ => none

/-- The page indices a trace visits, in order. -/
def visitedPages (evs : List Event) : List Nat :=
  evs.filterMap Event.visitedPage

/-- Line 30: the id of the marker table element. -/
def target_table_id : String := "searchresult_tb"

/-- Line 61: the `WebDriverWait` bound, in seconds. -/
def waitTimeout : Nat := 20

/-- DOM-rendering behaviour of one page load: for each element id, the time
at which an element with that id first becomes present in the DOM (`none` if
it never appears). -/
structure DomEnv where
  appearTime : String → Option Nat

/-- Lines 61–62: `WebDriverWait(driver, 20).until(EC.presence_of_element_located
((By.ID, target_table_id)))` — succeeds when the marker appears within the
bound, raises `TimeoutException` otherwise. -/
def waitForMarker (d : DomEnv) : Except FetchErr Unit :=
  match d.appearTime target_table_id with
  | some t => if t ≤ waitTimeout then Except.ok () else Except.error FetchErr.timeout
  | none => Except.error FetchErr.timeout

/-! Helper lemmas about the embedding. -/

/-- A non-empty `headers_list` disables the header-extraction block. -/
theorem headersAfter_of_ne_nil (p : Nat) (headers : List String) (t : HtmlTable)
    (h : headers ≠ []) : headersAfter p headers t = headers := by
  cases headers with
  | nil => exact absurd rfl h
  | cons a as => simp [headersAfter]

/-- Pages other than page 1 never run the header-extraction block. -/
theorem headersAfter_of_ne_one (p : Nat) (headers : List String) (t : HtmlTable)
    (h : p ≠ 1) : headersAfter p headers t = headers := by
  simp [headersAfter, beq_eq_false_iff_ne.mpr h]

/-- One page iteration leaves a non-empty `headers_list` unchanged. -/
theorem processPage_headers_of_ne_nil (p : Nat) (st : CrawlState) (pr : PageResult)
    (h : st.headers_list ≠ []) : (processPage p st pr).headers_list = st.headers_list := by
  cases pr with
  | fetchError e => rfl
  | fatal => rfl
  | parsed tb =>
    cases tb with
    | none => rfl
    | some t => simp [processPage, headersAfter_of_ne_nil p st.headers_list t h]

/-- A page iteration with index other than 1 leaves `headers_list` unchanged. -/
theorem processPage_headers_of_ne_one (p : Nat) (st : CrawlState) (pr : PageResult)
    (h : p ≠ 1) : (processPage p st pr).headers_list = st.headers_list := by
  cases pr with
  | fetchError e => rfl
  | fatal => rfl
  | parsed tb =>
    cases tb with
    | none => rfl
    | some t => simp [processPage, headersAfter_of_ne_one p st.headers_list t h]

/-- One page iteration only ever appends to `all_data`. -/
theorem processPage_data_append (p : Nat) (st : CrawlState) (pr : PageResult) :
    ∃ rest, (processPage p st pr).all_data = st.all_data ++ rest := by
  cases pr with
  | fetchError e => exact ⟨[], by simp [processPage]⟩
  | fatal => exact ⟨[], by simp [processPage]⟩
  | parsed tb =>
    cases tb with
    | none => exact ⟨[], by simp [processPage]⟩
    | some t => exact ⟨pageContribution (headersAfter p st.headers_list t) t, rfl⟩

/-- A page contributes at most as many rows as its table holds. -/
theorem pageContribution_length_le (headers : List String) (t : HtmlTable) :
    (pageContribution headers t).length ≤ (bodyRows t).length := by
  unfold pageContribution
  refine le_trans (List.length_filter_le _ _) ?_
  rw [List.length_map]
  unfold extractedRows
  split
  · rw [List.length_drop]
    exact Nat.sub_le _ _
  · exact le_refl _

/-- One page iteration grows `all_data` by at most `perPageRowCount`. -/
theorem processPage_data_length_le (p : Nat) (st : CrawlState) (pr : PageResult) :
    (processPage p st pr).all_data.length ≤ st.all_data.length + perPageRowCount pr := by
  cases pr with
  | fetchError e => simp [processPage, perPageRowCount]
  | fatal => simp [processPage, perPageRowCount]
  | parsed tb =>
    cases tb with
    | none => simp [processPage, perPageRowCount]
    | some t =>
      simp only [processPage, perPageRowCount, List.length_append]
      exact Nat.add_le_add_left (pageContribution_length_le _ t) _

/-- The loop leaves a non-empty `headers_list` unchanged. -/
theorem runPages_headers_of_ne_nil (env : Nat → PageResult) (ps : List Nat) :
    ∀ st evs, st.headers_list ≠ [] →
      (runPages env ps st evs).state.headers_list = st.headers_list := by
  induction ps with
  | nil => intro st evs _; rfl
  | cons p ps ih =>
    intro st evs h
    cases henv : env p with
    | fatal => simp [runPages, henv]
    | fetchError e =>
      simp only [runPages, henv]
      exact ih _ _ h
    | parsed tb =>
      have hs := processPage_headers_of_ne_nil p st (PageResult.parsed tb) h
      simp only [runPages, henv]
      rw [ih _ _ (by rw [hs]; exact h), hs]

/-- If no visited page has index 1, the loop leaves `headers_list` unchanged. -/
theorem runPages_headers_no_page1 (env : Nat → PageResult) (ps : List Nat)
    (hps : ∀ p ∈ ps, p ≠ 1) :
    ∀ st evs, (runPages env ps st evs).state.headers_list = st.headers_list := by
  induction ps with
  | nil => intro st evs; rfl
  | cons p ps ih =>
    intro st evs
    have hp : p ≠ 1 := hps p (List.mem_cons_self p ps)
    have hps' : ∀ q ∈ ps, q ≠ 1 := fun q hq => hps q (List.mem_cons_of_mem p hq)
    cases henv : env p with
    | fatal => simp [runPages, henv]
    | fetchError e =>
      simp only [runPages, henv]
      exact ih hps' _ _
    | parsed tb =>
      simp only [runPages, henv]
      rw [ih hps' _ _, processPage_headers_of_ne_one p st (PageResult.parsed tb) hp]

/-- If no visited page is fatal, the loop does not abort. -/
theorem runPages_aborted_false (env : Nat → PageResult) (ps : List Nat)
    (hf : ∀ p ∈ ps, env p ≠ PageResult.fatal) :
    ∀ st evs, (runPages env ps st evs).aborted = false := by
  induction ps with
  | nil => intro st evs; rfl
  | cons p ps ih =>
    intro st evs
    have hp : env p ≠ PageResult.fatal := hf p (List.mem_cons_self p ps)
    have hf' : ∀ q ∈ ps, env q ≠ PageResult.fatal := fun q hq => hf q (List.mem_cons_of_mem p hq)
    cases henv : env p with
    | fatal => exact absurd henv hp
    | fetchError e =>
      simp only [runPages, henv]
      exact ih hf' _ _
    | parsed tb =>
      simp only [runPages, henv]
      exact ih hf' _ _

/-- If no visited page is fatal, the loop visits exactly its page list, in
order, appended to the visits already in the trace. -/
theorem runPages_visited (env : Nat → PageResult) (ps : List Nat)
    (hf : ∀ p ∈ ps, env p ≠ PageResult.fatal) :
    ∀ st evs, visitedPages (runPages env ps st evs).events = visitedPages evs ++ ps := by
  induction ps with
  | nil => intro st evs; simp [runPages]
  | cons p ps ih =>
    intro st evs
    have hp : env p ≠ PageResult.fatal := hf p (List.mem_cons_self p ps)
    have hf' : ∀ q ∈ ps, env q ≠ PageResult.fatal := fun q hq => hf q (List.mem_cons_of_mem p hq)
    cases henv : env p with
    | fatal => exact absurd henv hp
    | fetchError e =>
      simp only [runPages, henv]
      rw [ih hf' _ _]
      simp [visitedPages, Event.visitedPage]
    | parsed tb =>
      simp only [runPages, henv]
      rw [ih hf' _ _]
      simp [visitedPages, Event.visitedPage]

/-- The loop never emits a `quit` event. -/
theorem runPages_count_quit (env : Nat → PageResult) (ps : List Nat) :
    ∀ st evs, (runPages env ps st evs).events.count Event.quit = evs.count Event.quit := by
  induction ps with
  | nil => intro st evs; rfl
  | cons p ps ih =>
    intro st evs
    cases henv : env p with
    | fatal => simp [runPages, henv]
    | fetchError e =>
      simp only [runPages, henv]
      rw [ih _ _]
      simp
    | parsed tb =>
      simp only [runPages, henv]
      rw [ih _ _]
      simp

/-- The loop grows `all_data` by at most the sum of the per-page bounds. -/
theorem runPages_data_length_le (env : Nat → PageResult) (ps : List Nat) :
    ∀ st evs, (runPages env ps st evs).state.all_data.length ≤
      st.all_data.length + (ps.map (fun p => perPageRowCount (env p))).sum := by
  induction ps with
  | nil => intro st evs; simp [runPages]
  | cons p ps ih =>
    intro st evs
    cases henv : env p with
    | fatal => simp [runPages, henv]
    | fetchError e =>
      simp only [runPages, henv, List.map_cons, List.sum_cons]
      refine le_trans (ih _ _) ?_
      simp [perPageRowCount]
    | parsed tb =>
      simp only [runPages, henv, List.map_cons, List.sum_cons]
      refine le_trans (ih _ _) ?_
      have := processPage_data_length_le p st (PageResult.parsed tb)
      omega

/-- The loop only ever appends to `all_data`. -/
theorem runPages_data_append (env : Nat → PageResult) (ps : List Nat) :
    ∀ st evs, ∃ rest, (runPages env ps st evs).state.all_data = st.all_data ++ rest := by
  induction ps with
  | nil => intro st evs; exact ⟨[], by simp [runPages]⟩
  | cons p ps ih =>
    intro st evs
    cases henv : env p with
    | fatal => exact ⟨[], by simp [runPages, henv]⟩
    | fetchError e =>
      simp only [runPages, henv]
      exact ih _ _
    | parsed tb =>
      simp only [runPages, henv]
      obtain ⟨r1, hr1⟩ := processPage_data_append p st (PageResult.parsed tb)
      obtain ⟨r2, hr2⟩ := ih (processPage p st (PageResult.parsed tb)) (evs ++ [Event.visit p])
      exact ⟨r1 ++ r2, by rw [hr2, hr1, List.append_assoc]⟩

/-! Concrete example inputs used by counterexamples and witnesses. -/

/-- A page table with a two-column thead and tbody rows of widths 2 and 1. -/
def exTable1 : HtmlTable :=
  { thead := some [⟨CellTag.th, "A"⟩, ⟨CellTag.th, "B"⟩]
    tbody := some [[⟨CellTag.td, "x"⟩, ⟨CellTag.td, "y"⟩], [⟨CellTag.td, "z"⟩]]
    trs := [[⟨CellTag.th, "A"⟩, ⟨CellTag.th, "B"⟩],
            [⟨CellTag.td, "x"⟩, ⟨CellTag.td, "y"⟩], [⟨CellTag.td, "z"⟩]] }

/-- Every page parses to `exTable1`. -/
def exEnv1 : Nat → PageResult := fun _ => PageResult.parsed (some exTable1)

/-- A page table with a two-column thead and one tbody data row. -/
def exTable2 : HtmlTable :=
  { thead := some [⟨CellTag.th, "H1"⟩, ⟨CellTag.th, "H2"⟩]
    tbody := some [[⟨CellTag.td, "a"⟩, ⟨CellTag.td, "b"⟩]]
    trs := [[⟨CellTag.th, "H1"⟩, ⟨CellTag.th, "H2"⟩],
            [⟨CellTag.td, "a"⟩, ⟨CellTag.td, "b"⟩]] }

/-- Page 1 times out; every later page parses to `exTable2`. -/
def exEnv2 : Nat → PageResult := fun p =>
  if p == 1 then PageResult.fetchError FetchErr.timeout
  else PageResult.parsed (some exTable2)

/-- A page table with a thead but no tbody and only the header `tr`. -/
def exTable3 : HtmlTable :=
  { thead := some [⟨CellTag.th, "A"⟩, ⟨CellTag.th, "B"⟩]
    tbody := none
    trs := [[⟨CellTag.th, "A"⟩, ⟨CellTag.th, "B"⟩]] }

/-- Every page parses to `exTable3`. -/
def exEnv3 : Nat → PageResult := fun _ => PageResult.parsed (some exTable3)

/-- A page table with neither thead nor tbody, two single-td rows. -/
def exTable4 : HtmlTable :=
  { thead := none
    tbody := none
    trs := [[⟨CellTag.td, "r1"⟩], [⟨CellTag.td, "r2"⟩]] }

/-- A DOM in which every element id appears at time 5. -/
def exDom : DomEnv := ⟨fun _ => some 5⟩

/-! Claim theorems. -/

/-- C1 (counterexample): a run over one page captures Header `["A", "B"]` and
collects rows `[["x", "y"], ["z"]]`; the second row's cell count differs from
the Header length, yet the final table still applies Header as column names —
refuting the claim that a mismatch with any collected row forces positional
labels. -/
theorem C1_counterexample :
    (crawlRun exEnv1 1).state.headers_list = ["A", "B"] ∧
    (crawlRun exEnv1 1).state.all_data = [["x", "y"], ["z"]] ∧
    ¬ (∀ r ∈ (crawlRun exEnv1 1).state.all_data,
        r.length = (crawlRun exEnv1 1).state.headers_list.length) ∧
    finalSchema (crawlRun exEnv1 1).state = Schema.named ["A", "B"] := by
  decide

/-- C1 (amended): the final table applies Header as column names iff Header is
non-empty and its length matches the cell count of the FIRST collected row;
if it differs from the first row's cell count (or Header is empty), positional
column labels are used for every row, never a mixed scheme. Later rows' cell
counts are not checked. -/
theorem C1_schema_first_row (st : CrawlState) (r0 : List String)
    (rs : List (List String)) (hdata : st.all_data = r0 :: rs) :
    (st.headers_list ≠ [] ∧ r0.length = st.headers_list.length →
      finalSchema st = Schema.named st.headers_list) ∧
    (st.headers_list = [] ∨ r0.length ≠ st.headers_list.length →
      finalSchema st = Schema.positional) := by
  constructor
  · rintro ⟨h1, h2⟩
    cases hh : st.headers_list with
    | nil => exact absurd hh h1
    | cons a as =>
      rw [hh] at h2
      simp [finalSchema, hdata, hh, h2]
  · intro h
    rcases h with h | h
    · simp [finalSchema, hdata, h]
    · cases hh : st.headers_list with
      | nil => simp [finalSchema, hdata, hh]
      | cons a as =>
        rw [hh] at h
        simp [finalSchema, hdata, hh]
        simpa using h

/-- C1 (witness): the amended rule applied at a concrete state. -/
theorem C1_schema_first_row_witness :
    finalSchema ⟨["A", "B"], [["x", "y"], ["z"]]⟩ = Schema.named ["A", "B"] :=
  (C1_schema_first_row ⟨["A", "B"], [["x", "y"], ["z"]]⟩ ["x", "y"] [["z"]] rfl).1
    ⟨by decide, by decide⟩

/-- C2 (counterexample): page 1 times out, page 2 is the first
successfully-parsed page and carries a header section whose extraction would
yield `["H1", "H2"]`, yet the run ends with an empty Header (while page 2's
data row was collected) — refuting the claim that Header extraction is
attempted on the first successfully-parsed page. -/
theorem C2_counterexample :
    exEnv2 1 = PageResult.fetchError FetchErr.timeout ∧
    exEnv2 2 = PageResult.parsed (some exTable2) ∧
    extractedHeaders exTable2 = ["H1", "H2"] ∧
    (crawlRun exEnv2 2).state.all_data = [["a", "b"]] ∧
    (crawlRun exEnv2 2).state.headers_list = [] := by
  decide

/-- C2 (amended): Header extraction is attempted only on page index 1: for
every run over at least one page, the final Header is exactly what page 1's
outcome yields (`extractedHeaders` of its table when page 1 parses one, empty
otherwise); pages of any other index never set the Header. -/
theorem C2_headers_from_page1 (env : Nat → PageResult) (n : Nat) (h : 1 ≤ n) :
    (crawlRun env n).state.headers_list = headersFromPage1 (env 1) := by
  obtain ⟨m, rfl⟩ : ∃ m, n = m + 1 := ⟨n - 1, (Nat.succ_pred_eq_of_pos h).symm⟩
  have hne : ∀ p ∈ List.range' 2 m, p ≠ 1 := by
    intro p hp
    have := (List.mem_range'_1.mp hp).1
    omega
  show (runPages env (List.range' 1 (m + 1)) ⟨[], []⟩ []).state.headers_list =
    headersFromPage1 (env 1)
  rw [List.range'_succ 1 m 1]
  cases henv : env 1 with
  | fatal => simp [runPages, henv, headersFromPage1]
  | fetchError e =>
    simp only [runPages, henv]
    rw [runPages_headers_no_page1 env (List.range' 2 m) hne]
    simp [headersFromPage1, henv]
  | parsed tb =>
    simp only [runPages, henv]
    rw [runPages_headers_no_page1 env (List.range' 2 m) hne]
    cases tb with
    | none => rfl
    | some t => simp [processPage, headersAfter, headersFromPage1]

/-- C2 (witness): the amended rule applied at a concrete run. -/
theorem C2_headers_from_page1_witness :
    (crawlRun exEnv2 2).state.headers_list = headersFromPage1 (exEnv2 1) :=
  C2_headers_from_page1 exEnv2 2 (by decide)

/-- C3 (counterexample): a run over one page captures the non-empty Header
`["A", "B"]` but collects zero rows, completes without error — and the final
table is entirely empty, discarding the captured Header, refuting the claim
that a zero-row result keeps the Header when one was captured. -/
theorem C3_counterexample :
    (crawlRun exEnv3 1).aborted = false ∧
    (crawlRun exEnv3 1).state.headers_list = ["A", "B"] ∧
    (crawlRun exEnv3 1).state.all_data = [] ∧
    finalSchema (crawlRun exEnv3 1).state = Schema.empty := by
  decide

/-- C3 (amended): a run that raises no uncatchable error completes without
error, and whenever zero rows were collected the final table is entirely
empty — regardless of whether a non-empty Header was captured. -/
theorem C3_zero_rows_empty (env : Nat → PageResult) (n : Nat)
    (hf : ∀ p, env p ≠ PageResult.fatal) :
    (crawlRun env n).aborted = false ∧
    ((crawlRun env n).state.all_data = [] →
      finalSchema (crawlRun env n).state = Schema.empty) := by
  constructor
  · show (runPages env (List.range' 1 n) ⟨[], []⟩ []).aborted = false
    exact runPages_aborted_false env _ (fun p _ => hf p) _ _
  · intro h
    simp [finalSchema, h]

/-- C3 (witness): the amended rule applied at a concrete run. -/
theorem C3_zero_rows_empty_witness :
    (crawlRun exEnv3 1).aborted = false ∧
    ((crawlRun exEnv3 1).state.all_data = [] →
      finalSchema (crawlRun exEnv3 1).state = Schema.empty) :=
  C3_zero_rows_empty exEnv3 1 (fun _ h => PageResult.noConfusion h)

/-- C4: a page whose fetch fails with any caught error (Timeout,
ElementNotFound, Unknown) contributes zero rows — the crawl state is left
unchanged — and the loop logs the failure and continues with the next page
index; such failures never abort the run. -/
theorem C4_failed_page_skipped (env : Nat → PageResult) (p : Nat) (ps : List Nat)
    (st : CrawlState) (evs : List Event) (e : FetchErr)
    (henv : env p = PageResult.fetchError e) :
    processPage p st (PageResult.fetchError e) = st ∧
    runPages env (p :: ps) st evs =
      runPages env ps st (evs ++ [Event.visit p, Event.logFetchError p e]) ∧
    ((∀ q ∈ ps, env q ≠ PageResult.fatal) →
      (runPages env (p :: ps) st evs).aborted = false) := by
  refine ⟨rfl, ?_, ?_⟩
  · simp only [runPages, henv]
  · intro hf
    refine runPages_aborted_false env (p :: ps) ?_ st evs
    intro q hq
    rcases List.mem_cons.mp hq with rfl | hq'
    · rw [henv]
      exact fun hc => PageResult.noConfusion hc
    · exact hf q hq'

/-- C4 (witness): the skip behaviour at a concrete failing page. -/
theorem C4_failed_page_skipped_witness :
    processPage 1 ⟨[], []⟩ (PageResult.fetchError FetchErr.timeout) = ⟨[], []⟩ ∧
    runPages exEnv2 [1, 2] ⟨[], []⟩ [] =
      runPages exEnv2 [2] ⟨[], []⟩
        ([] ++ [Event.visit 1, Event.logFetchError 1 FetchErr.timeout]) ∧
    ((∀ q ∈ [2], exEnv2 q ≠ PageResult.fatal) →
      (runPages exEnv2 [1, 2] ⟨[], []⟩ []).aborted = false) :=
  C4_failed_page_skipped exEnv2 1 [2] ⟨[], []⟩ [] FetchErr.timeout (by decide)

/-- C5: once `headers_list` is non-empty it is never overwritten — any
remaining portion of the page loop, whatever its pages and outcomes, leaves
it unchanged. -/
theorem C5_header_never_overwritten (env : Nat → PageResult) (ps : List Nat)
    (st : CrawlState) (evs : List Event) (h : st.headers_list ≠ []) :
    (runPages env ps st evs).state.headers_list = st.headers_list :=
  runPages_headers_of_ne_nil env ps st evs h

/-- C5 (witness): the invariant at a concrete mid-run state. -/
theorem C5_header_never_overwritten_witness :
    (runPages exEnv1 [2, 3] ⟨["A", "B"], []⟩ []).state.headers_list = ["A", "B"] :=
  C5_header_never_overwritten exEnv1 [2, 3] ⟨["A", "B"], []⟩ [] (by decide)

/-- C6: when no page raises an uncatchable error, a crawl over `n` pages
visits exactly the page indices `1..n`, in strictly increasing order, exactly
once each, and the number of collected rows is at most the sum of the
per-page row counts. -/
theorem C6_visits_and_row_bound (env : Nat → PageResult) (n : Nat)
    (hf : ∀ p, env p ≠ PageResult.fatal) :
    visitedPages (crawlRun env n).events = List.range' 1 n ∧
    (visitedPages (crawlRun env n).events).Pairwise (· < ·) ∧
    (∀ p, p ∈ visitedPages (crawlRun env n).events ↔ 1 ≤ p ∧ p < n + 1) ∧
    (crawlRun env n).state.all_data.length ≤
      ((List.range' 1 n).map (fun p => perPageRowCount (env p))).sum := by
  have hv : visitedPages (crawlRun env n).events = List.range' 1 n := by
    show visitedPages
      ((runPages env (List.range' 1 n) ⟨[], []⟩ []).events ++ [Event.quit]) = _
    rw [visitedPages, List.filterMap_append]
    have h1 := runPages_visited env (List.range' 1 n) (fun p _ => hf p) ⟨[], []⟩ []
    rw [visitedPages] at h1
    rw [h1]
    simp [visitedPages, Event.visitedPage]
  refine ⟨hv, ?_, ?_, ?_⟩
  · rw [hv]
    exact List.pairwise_lt_range' 1 n
  · intro p
    rw [hv, List.mem_range'_1]
    omega
  · show (runPages env (List.range' 1 n) ⟨[], []⟩ []).state.all_data.length ≤ _
    have h2 := runPages_data_length_le env (List.range' 1 n) ⟨[], []⟩ []
    simpa using h2

/-- C6 (witness): the visit list and row bound at a concrete run. -/
theorem C6_visits_and_row_bound_witness :
    visitedPages (crawlRun exEnv1 2).events = List.range' 1 2 ∧
    (visitedPages (crawlRun exEnv1 2).events).Pairwise (· < ·) ∧
    (∀ p, p ∈ visitedPages (crawlRun exEnv1 2).events ↔ 1 ≤ p ∧ p < 2 + 1) ∧
    (crawlRun exEnv1 2).state.all_data.length ≤
      ((List.range' 1 2).map (fun p => perPageRowCount (exEnv1 p))).sum :=
  C6_visits_and_row_bound exEnv1 2 (fun _ h => PageResult.noConfusion h)

/-- C7: on every execution path — normal completion of the page loop and
every aborting path alike — the browser release (`driver.quit()`, the
`finally` block) happens exactly once, as the final event of the run. -/
theorem C7_quit_exactly_once (env : Nat → PageResult) (n : Nat) :
    (crawlRun env n).events.count Event.quit = 1 ∧
    (crawlRun env n).events.getLast? = some Event.quit := by
  constructor
  · show ((runPages env (List.range' 1 n) ⟨[], []⟩ []).events
      ++ [Event.quit]).count Event.quit = 1
    rw [List.count_append, runPages_count_quit env (List.range' 1 n) ⟨[], []⟩ []]
    decide
  · show ((runPages env (List.range' 1 n) ⟨[], []⟩ []).events
      ++ [Event.quit]).getLast? = some Event.quit
    exact List.getLast?_concat _

/-- C8: a successfully parsed page appends exactly its non-empty extracted
data rows, in encounter order, to the end of `all_data`; empty rows are
never appended; and the loop only ever appends, so earlier pages' rows
precede later pages' rows. -/
theorem C8_nonempty_rows_appended (p : Nat) (st : CrawlState) (t : HtmlTable) :
    (processPage p st (PageResult.parsed (some t))).all_data =
      st.all_data ++ pageContribution (headersAfter p st.headers_list t) t ∧
    (∀ r, r ∈ pageContribution (headersAfter p st.headers_list t) t → r ≠ []) ∧
    (∀ env ps evs, ∃ rest,
      (runPages env ps st evs).state.all_data = st.all_data ++ rest) := by
  refine ⟨rfl, ?_, ?_⟩
  · intro r hr hnil
    have hm := List.mem_filter.mp hr
    rw [hnil] at hm
    simp at hm
  · intro env ps evs
    exact runPages_data_append env ps st evs

/-- C8 (witness): the append equation at a concrete page. -/
theorem C8_nonempty_rows_appended_witness :
    (processPage 2 ⟨["A", "B"], [["q"]]⟩ (PageResult.parsed (some exTable1))).all_data =
      [["q"]] ++ pageContribution (headersAfter 2 ["A", "B"] exTable1) exTable1 :=
  (C8_nonempty_rows_appended 2 ⟨["A", "B"], [["q"]]⟩ exTable1).1

/-- C9: the per-page wait targets the fixed marker id `searchresult_tb` with
the fixed bound 20: it succeeds iff the marker appears in the DOM within the
bound, and fails — with a Timeout error — iff it does not. -/
theorem C9_wait_marker_timeout (d : DomEnv) :
    (waitForMarker d = Except.ok () ↔
      ∃ t, d.appearTime target_table_id = some t ∧ t ≤ waitTimeout) ∧
    (waitForMarker d = Except.error FetchErr.timeout ↔
      ¬ ∃ t, d.appearTime target_table_id = some t ∧ t ≤ waitTimeout) ∧
    target_table_id = "searchresult_tb" ∧ waitTimeout = 20 := by
  refine ⟨?_, ?_, rfl, rfl⟩ <;>
    (unfold waitForMarker
     cases h : d.appearTime target_table_id with
     | none => simp [h]
     | some t => by_cases ht : t ≤ waitTimeout <;> simp [h, ht])

/-- C9 (witness): the wait succeeds on a DOM whose marker appears at time 5. -/
theorem C9_wait_marker_timeout_witness : waitForMarker exDom = Except.ok () :=
  (C9_wait_marker_timeout exDom).1.mpr ⟨5, rfl, by decide⟩

/-- C10: on every page, whatever its index, when `headers_list` is non-empty
and the page's table has no tbody, the first `tr` of the table is excluded
from data extraction, so the page contributes exactly the non-empty td-cell
rows of the remaining rows — the first row's cells never reach `all_data`. -/
theorem C10_first_row_excluded (p : Nat) (st : CrawlState) (t : HtmlTable)
    (hh : st.headers_list ≠ []) (hb : t.tbody = none) :
    extractedRows st.headers_list t = t.trs.drop 1 ∧
    (processPage p st (PageResult.parsed (some t))).all_data =
      st.all_data ++ ((t.trs.drop 1).map dataCells).filter (fun cols => !cols.isEmpty) := by
  have hbr : bodyRows t = t.trs := by simp [bodyRows, hb]
  have hnt : noTbody t = true := by simp [noTbody, hb]
  have hex : extractedRows st.headers_list t = t.trs.drop 1 := by
    unfold extractedRows
    rw [hbr, hnt]
    cases hcs : t.trs with
    | nil => simp
    | cons r rsx =>
      cases hhl : st.headers_list with
      | nil => exact absurd hhl hh
      | cons a as => simp
  refine ⟨hex, ?_⟩
  simp only [processPage]
  rw [headersAfter_of_ne_nil p st.headers_list t hh]
  unfold pageContribution
  rw [hex]

/-- C10 (witness): the first-row exclusion at a concrete later page. -/
theorem C10_first_row_excluded_witness :
    extractedRows ["H"] exTable4 = exTable4.trs.drop 1 ∧
    (processPage 3 ⟨["H"], []⟩ (PageResult.parsed (some exTable4))).all_data =
      [] ++ ((exTable4.trs.drop 1).map dataCells).filter (fun cols => !cols.isEmpty) :=
  C10_first_row_excluded 3 ⟨["H"], []⟩ exTable4 (by decide) rfl

end NccuScrape
